import Mathlib

/-!
Verification development for the `client` package of `scs-build-client`
(`src/client/client.go`): URL normalization (`normalizeURL`), functional
options and client construction (`Option`, `Opt...`, `NewClient`), and
request building (`newRequest`, `setRequestHeaders`).

Go strings are modelled by Lean `String`; the `strings.*` helpers used by
the source are modelled over the underlying character lists. The parts of
the Go standard library that the source calls (`net/url.Parse`,
`URL.ResolveReference`, `URL.String`, `net/http.NewRequest`) are not part
of this repository, so they are modelled from the spec (each such
definition is marked `Modelled from the spec:`), restricted to the URL
components this package uses (scheme, opaque, host, path — query,
fragment, userinfo, percent-encoding and host validation are not
exercised by this package's logic and are not modelled).
-/

/-- Model of Go `strings.HasPrefix`: `pre` is a leading substring of `s`. -/
def hasPrefixStr (s pre : String) : Bool :=
  decide (pre.data <+: s.data)

/-- Model of Go `strings.HasSuffix`: `suf` is a trailing substring of `s`. -/
def hasSuffixStr (s suf : String) : Bool :=
  decide (suf.data <:+ s.data)

/-- Model of Go `strings.TrimPrefix`: drop `pre` from the front of `s` if present. -/
def trimPrefixStr (s pre : String) : String :=
  if hasPrefixStr s pre then String.mk (s.data.drop pre.data.length) else s

/-- Model of Go `base[:strings.LastIndex(base, "/")+1]`: everything up to and
including the last separator of `s` (empty if `s` has no separator). -/
def upToLastSlash (s : String) : String :=
  String.mk ((s.data.reverse.dropWhile (fun c => c ≠ '/')).reverse)

/-- Characterwise split at separators, keeping empty fields (Go `strings.Split (s, "/")`). -/
def splitOnSlashAux : List Char → List Char → List (List Char)
  | [], acc => [acc.reverse]
  | c :: cs, acc =>
    if c = '/' then acc.reverse :: splitOnSlashAux cs []
    else splitOnSlashAux cs (c :: acc)

/-- Model of Go `strings.Split (s, "/")`. -/
def splitOnSlash (s : String) : List String :=
  (splitOnSlashAux s.data []).map String.mk

/-- Model of Go `strings.Join (xs, "/")`. -/
def joinSlash : List String → String
  | [] => ""
  | [x] => x
  | x :: y :: xs => x ++ "/" ++ joinSlash (y :: xs)

/-- Split a character list at its first separator: the Go idiom
`if i := strings.Index(authority, "/"); i >= 0 { authority, rest = authority[:i], authority[i:] }`.
The first component has no separator; the second is empty or starts with one. -/
def cutSlash : List Char → List Char × List Char
  | [] => ([], [])
  | c :: cs =>
    if c = '/' then ([], c :: cs)
    else (c :: (cutSlash cs).1, (cutSlash cs).2)

/-- ASCII lowercasing of one character (the inputs this package feeds to
`strings.ToLower` are scheme names, which are ASCII). -/
def charToLower (c : Char) : Char :=
  if 'A' ≤ c ∧ c ≤ 'Z' then Char.ofNat (c.toNat + 32) else c

/-- Model of Go `strings.ToLower` on ASCII input. -/
def toLowerStr (s : String) : String :=
  String.mk (s.data.map charToLower)

/-- Errors produced by the modelled code. `simple` stands for a Go
`errors.New` value; `wrapped e` is `fmt.Errorf("%w", e)`;
`unsupportedScheme sch` is `fmt.Errorf("%w %s", errUnsupportedProtocolScheme, sch)`,
the `UnsupportedSchemeError` carrying the offending scheme. -/
inductive GoError where
  | simple (msg : String)
  | wrapped (e : GoError)
  | unsupportedScheme (scheme : String)
  | missingScheme
  | colonInFirstSegment
  | invalidMethod (method : String)
deriving DecidableEq

/-- Modelled from the spec: the `net/url.URL` structure, restricted to the
components this package exercises (scheme, opaque, host, path). -/
structure URL where
  scheme : String
  opq : String
  host : String
  path : String
deriving DecidableEq

/-- Modelled from the spec: the scan of `net/url`'s `getScheme`. `orig` is
the whole raw URL (returned as the remainder when no scheme is found),
`acc` the scheme characters read so far. A `:` after a nonempty valid
scheme yields the lowercased scheme and the remainder; a `:` first thing is
the "missing protocol scheme" error; any character outside the scheme
alphabet means the string has no scheme part. -/
def getSchemeAux (orig : List Char) : List Char → List Char → Except GoError (String × String)
  | [], _ => .ok ("", String.mk orig)
  | c :: cs, acc =>
    if c.isAlpha then getSchemeAux orig cs (acc ++ [c])
    else if c.isDigit ∨ c = '+' ∨ c = '-' ∨ c = '.' then
      if acc = [] then .ok ("", String.mk orig)
      else getSchemeAux orig cs (acc ++ [c])
    else if c = ':' then
      if acc = [] then .error .missingScheme
      else .ok (toLowerStr (String.mk acc), String.mk cs)
    else .ok ("", String.mk orig)

/-- Modelled from the spec: `net/url`'s `getScheme`. -/
def getScheme (s : String) : Except GoError (String × String) :=
  getSchemeAux s.data s.data []

/-- Modelled from the spec: `net/url.Parse` (with `viaRequest = false`),
restricted to scheme/opaque/host/path. After the scheme is split off:
a rootless remainder with a scheme is opaque; with no scheme, a colon in
the first path segment is rejected; a `//` remainder is authority
(host up to the first separator) plus path; anything else is a path. -/
def parseURL (rawURL : String) : Except GoError URL :=
  match getScheme rawURL with
  | .error e => .error e
  | .ok (scheme, rest) =>
    if hasPrefixStr rest "/" then
      if (scheme ≠ "" ∨ ¬ hasPrefixStr rest "///") ∧ hasPrefixStr rest "//" then
        .ok { scheme := scheme, opq := "",
              host := String.mk (cutSlash (rest.data.drop 2)).1,
              path := String.mk (cutSlash (rest.data.drop 2)).2 }
      else
        .ok { scheme := scheme, opq := "", host := "", path := rest }
    else
      if scheme ≠ "" then
        .ok { scheme := scheme, opq := rest, host := "", path := "" }
      else if (cutSlash rest.data).1.contains ':' then
        .error .colonInFirstSegment
      else
        .ok { scheme := "", opq := "", host := "", path := rest }

/-- The path post-processing step of `normalizeURL` (`src/client/client.go`):
ensure the path component is terminated with a separator. -/
def ensureTrailingSlash (u : URL) : URL :=
  if ¬ hasSuffixStr u.path "/" then { u with path := u.path ++ "/" } else u

/-- Embedding of `normalizeURL` (`src/client/client.go`): parse `rawURL`,
require scheme `http` or `https`, and ensure the path component is
terminated with a separator. -/
def normalizeURL (rawURL : String) : Except GoError URL :=
  match parseURL rawURL with
  | .error e => .error e
  | .ok u =>
    if u.scheme ≠ "http" ∧ u.scheme ≠ "https" then
      .error (.unsupportedScheme u.scheme)
    else
      .ok (ensureTrailingSlash u)

/-- Modelled from the spec: `net/url.URL.String`, restricted to
scheme/opaque/host/path. -/
def urlString (u : URL) : String :=
  (if u.scheme ≠ "" then u.scheme ++ ":" else "") ++
    (if u.opq ≠ "" then u.opq
     else
       (if u.scheme ≠ "" ∨ u.host ≠ "" then
          (if u.host ≠ "" ∨ u.path ≠ "" then "//" ++ u.host else "")
        else "") ++
       (if u.path ≠ "" ∧ ¬ hasPrefixStr u.path "/" ∧ u.host ≠ "" then "/" else "") ++
       u.path)

/-- Modelled from the spec: `net/url`'s `resolvePath` (RFC 3986 §5.3 merge
plus remove-dot-segments): merge `ref` into `base`, drop `.` segments, let
`..` pop a segment, keep a trailing separator after a final dot segment,
and root the result at `/`. -/
def resolvePath (base ref : String) : String :=
  let full : String :=
    if ref = "" then base
    else if ¬ hasPrefixStr ref "/" then upToLastSlash base ++ ref
    else ref
  if full = "" then ""
  else
    let src := splitOnSlash full
    let dst := src.foldl
      (fun dst elem =>
        if elem = "." then dst
        else if elem = ".." then dst.dropLast
        else dst ++ [elem]) []
    let dst := if src.getLastD "" = "." ∨ src.getLastD "" = ".." then dst ++ [""] else dst
    "/" ++ trimPrefixStr (joinSlash dst) "/"

/-- Modelled from the spec: `net/url.URL.ResolveReference` (RFC 3986 §5.2),
restricted to scheme/opaque/host/path. A reference with its own scheme or
host is taken absolutely; an opaque reference replaces everything after the
scheme; otherwise the reference path is resolved against the base path. -/
def resolveReference (base ref : URL) : URL :=
  let scheme := if ref.scheme = "" then base.scheme else ref.scheme
  if ref.scheme ≠ "" ∨ ref.host ≠ "" then
    { scheme := scheme, opq := ref.opq, host := ref.host,
      path := resolvePath ref.path "" }
  else if ref.opq ≠ "" then
    { scheme := scheme, opq := ref.opq, host := "", path := "" }
  else
    { scheme := scheme, opq := ref.opq, host := base.host,
      path := resolvePath base.path ref.path }

deriving instance DecidableEq for Except

/-- Modelled from the spec: an `*http.Client` transport handle is opaque to
this package; `defaultClient` stands for `http.DefaultClient`, the default
shared transport. A Go `*http.Client` value may also be `nil`, which is
modelled as `none` at `Option Transport`. -/
inductive Transport where
  | defaultClient
  | custom (id : Nat)
deriving DecidableEq

/-- Embedding of `clientOptions` (`src/client/client.go`): the mutable
builder-stage configuration. -/
structure clientOptions where
  baseURL : String
  bearerToken : String
  userAgent : String
  httpClient : Option Transport
deriving DecidableEq

/-- Embedding of the source's `Option` type (`type Option func(co *clientOptions) error`),
named `ClientOpt` here because `Option` is taken in Lean. -/
abbrev ClientOpt : Type := clientOptions → Except GoError clientOptions

/-- Embedding of `OptBaseURL` (`src/client/client.go`). -/
def OptBaseURL (url : String) : ClientOpt :=
  fun co => .ok { co with baseURL := url }

/-- Embedding of `OptBearerToken` (`src/client/client.go`). -/
def OptBearerToken (token : String) : ClientOpt :=
  fun co => .ok { co with bearerToken := token }

/-- Embedding of `OptUserAgent` (`src/client/client.go`). -/
def OptUserAgent (agent : String) : ClientOpt :=
  fun co => .ok { co with userAgent := agent }

/-- Embedding of `OptHTTPClient` (`src/client/client.go`); the argument is
the (possibly nil) `*http.Client`. -/
def OptHTTPClient (c : Option Transport) : ClientOpt :=
  fun co => .ok { co with httpClient := c }

/-- Embedding of `Client` (`src/client/client.go`): the immutable
post-construction configuration. `httpClient` is the possibly-nil
`HTTPClient` pointer. -/
structure Client where
  baseURL : URL
  authToken : String
  userAgent : String
  httpClient : Option Transport
deriving DecidableEq

/-- Embedding of `defaultBaseURL` (`src/client/client.go`). -/
def defaultBaseURL : String := "https://build.sylabs.io/"

/-- The initial `clientOptions` literal of `NewClient` (`src/client/client.go`):
default base URL and `http.DefaultClient`, token and agent empty. -/
def initialClientOptions : clientOptions :=
  { baseURL := defaultBaseURL, bearerToken := "", userAgent := "",
    httpClient := some .defaultClient }

/-- The option-application loop of `NewClient` (`src/client/client.go`):
options in sequence order, stopping at the first error. -/
def applyOptions : List ClientOpt → clientOptions → Except GoError clientOptions
  | [], co => .ok co
  | opt :: rest, co =>
    match opt co with
    | .error e => .error e
    | .ok co2 => applyOptions rest co2

/-- Embedding of `NewClient` (`src/client/client.go`): apply the options to
the defaults (first failure is returned wrapped and aborts construction),
then normalize the accumulated base URL (failure likewise wrapped), and
freeze the result into a `Client`. -/
def NewClient (opts : List ClientOpt) : Except GoError Client :=
  match applyOptions opts initialClientOptions with
  | .error e => .error (.wrapped e)
  | .ok co =>
    match normalizeURL co.baseURL with
    | .error e => .error (.wrapped e)
    | .ok u =>
      .ok { baseURL := u, authToken := co.bearerToken,
            userAgent := co.userAgent, httpClient := co.httpClient }

/-- Modelled from the spec: an HTTP header set (`http.Header`) as an
association list of name/value pairs; the keys this package uses are
already in canonical MIME form. -/
abbrev Header : Type := List (String × String)

/-- Modelled from the spec: `http.Header.Set`, replacing any existing
values of the key with the single given value. -/
def headerSet (h : Header) (key value : String) : Header :=
  h.filter (fun kv => kv.1 ≠ key) ++ [(key, value)]

/-- Look up the value of a header key (Go `http.Header.Get`). -/
def headerGet (h : Header) (key : String) : Option String :=
  (h.find? (fun kv => kv.1 = key)).map (fun kv => kv.2)

/-- Modelled from the spec: the HTTP token-character alphabet used by
`net/http`'s method validation (RFC 7230 tchar); code points 39 and 96 are
the apostrophe and the backquote. -/
def isTokenChar (c : Char) : Bool :=
  c.isAlpha ∨ c.isDigit ∨
    c ∈ ['!', '#', '$', '%', '&', '*', '+', '-', '.', '^', '_', '|', '~'] ∨
    c.toNat = 39 ∨ c.toNat = 96

/-- Modelled from the spec: `net/http`'s `validMethod`. -/
def validMethod (m : String) : Bool :=
  m ≠ "" ∧ m.data.all isTokenChar

/-- Modelled from the spec: an `*http.Request` restricted to the fields
this package touches: method, URL, header set, and the caller's body
byte stream (`none` for a nil body). -/
structure Request where
  method : String
  url : URL
  header : Header
  body : Option (List Nat)
deriving DecidableEq

/-- Modelled from the spec: `http.NewRequest`: an empty method defaults to
GET, an invalid method or unparsable URL is rejected
(`RequestConstructionError`), and the request starts with an empty header
set and the caller's body. -/
def httpNewRequest (method urlStr : String) (body : Option (List Nat)) :
    Except GoError Request :=
  let method := if method = "" then "GET" else method
  if ¬ validMethod method then .error (.invalidMethod method)
  else
    match parseURL urlStr with
    | .error e => .error e
    | .ok u => .ok { method := method, url := u, header := [], body := body }

/-- Embedding of `Client.setRequestHeaders` (`src/client/client.go`):
set `Authorization` to `BEARER <token>` when the auth token is non-empty,
and `User-Agent` when the user agent is non-empty. -/
def Client.setRequestHeaders (c : Client) (h : Header) : Header :=
  let h := if c.authToken ≠ "" then headerSet h "Authorization" ("BEARER " ++ c.authToken) else h
  if c.userAgent ≠ "" then headerSet h "User-Agent" c.userAgent else h

/-- Embedding of `Client.newRequest` (`src/client/client.go`): trim a
single leading separator from the relative path, resolve it against the
base URL, build the request from the resolved URL string, and set the
standard headers. -/
def Client.newRequest (c : Client) (method path : String) (body : Option (List Nat)) :
    Except GoError Request :=
  let u := resolveReference c.baseURL
    { scheme := "", opq := "", host := "", path := trimPrefixStr path "/" }
  match httpNewRequest method (urlString u) body with
  | .error e => .error e
  | .ok r => .ok { r with header := c.setRequestHeaders r.header }

/-- A syntactic description of one application of the four exposed option
constructors, used to quantify over option sequences built only from them. -/
inductive OptDesc where
  | baseURL (s : String)
  | bearerToken (s : String)
  | userAgent (s : String)
  | httpClient (t : Option Transport)
deriving DecidableEq

/-- The option a description denotes. -/
def interpOpt : OptDesc → ClientOpt
  | .baseURL s => OptBaseURL s
  | .bearerToken s => OptBearerToken s
  | .userAgent s => OptUserAgent s
  | .httpClient t => OptHTTPClient t

/-- Pure application of a described option sequence to a configuration. -/
def applyDescs : List OptDesc → clientOptions → clientOptions
  | [], co => co
  | d :: ds, co =>
    match d with
    | .baseURL s => applyDescs ds { co with baseURL := s }
    | .bearerToken s => applyDescs ds { co with bearerToken := s }
    | .userAgent s => applyDescs ds { co with userAgent := s }
    | .httpClient t => applyDescs ds { co with httpClient := t }

/-- The base URL string in effect after a described option sequence:
the argument of the last base-URL option, or the default. -/
def finalBaseURL (ds : List OptDesc) : String :=
  ds.foldl (fun acc d => match d with | .baseURL s => s | _ => acc) defaultBaseURL

/-- The transport handle in effect after a described option sequence:
the argument of the last transport option, or the default shared transport. -/
def finalTransport (ds : List OptDesc) : Option Transport :=
  ds.foldl (fun acc d => match d with | .httpClient t => t | _ => acc)
    (some Transport.defaultClient)

/-- Whether a result is an error. -/
def isErr {ε α : Type} : Except ε α → Bool
  | .error _ => true
  | .ok _ => false

/-! Helper lemmas about the string models. -/

theorem strDataAppend (a b : String) : (a ++ b).data = a.data ++ b.data := rfl

theorem strMkData (s : String) : String.mk s.data = s := rfl

theorem hasSuffixStr_append_slash (s : String) : hasSuffixStr (s ++ "/") "/" = true := by
  unfold hasSuffixStr
  rw [decide_eq_true_eq, strDataAppend]
  exact List.suffix_append _ _

theorem ensureTrailingSlash_path (u : URL) :
    hasSuffixStr (ensureTrailingSlash u).path "/" = true := by
  unfold ensureTrailingSlash
  split
  · exact hasSuffixStr_append_slash u.path
  · rename_i h
    exact Bool.of_not_eq_false (fun hf => h (by rw [hf]; exact Bool.false_ne_true))

theorem ensureTrailingSlash_scheme (u : URL) :
    (ensureTrailingSlash u).scheme = u.scheme := by
  unfold ensureTrailingSlash; split <;> rfl

theorem trimPrefixStr_slash_append (p : String) : trimPrefixStr ("/" ++ p) "/" = p := by
  have hd : ("/" ++ p).data = '/' :: p.data := rfl
  unfold trimPrefixStr
  rw [if_pos]
  · rw [hd]; rfl
  · unfold hasPrefixStr
    rw [decide_eq_true_eq, hd]
    exact ⟨p.data, rfl⟩

theorem trimPrefixStr_no_slash (p : String) (h : hasPrefixStr p "/" = false) :
    trimPrefixStr p "/" = p := by
  unfold trimPrefixStr
  rw [if_neg]
  rw [h]
  exact Bool.false_ne_true

theorem applyOptions_append (a b : List ClientOpt) (co : clientOptions) :
    applyOptions (a ++ b) co =
      match applyOptions a co with
      | .error e => .error e
      | .ok co2 => applyOptions b co2 := by
  induction a generalizing co with
  | nil => rfl
  | cons opt rest ih =>
    simp only [List.cons_append, applyOptions]
    cases h : opt co with
    | error e => rfl
    | ok co2 => exact ih co2

theorem applyOptions_map_interp (ds : List OptDesc) (co : clientOptions) :
    applyOptions (ds.map interpOpt) co = .ok (applyDescs ds co) := by
  induction ds generalizing co with
  | nil => rfl
  | cons d ds ih =>
    cases d <;> simp only [List.map_cons, applyOptions, interpOpt, OptBaseURL,
      OptBearerToken, OptUserAgent, OptHTTPClient, applyDescs] <;> exact ih _

theorem NewClient_map_interp (ds : List OptDesc) :
    NewClient (ds.map interpOpt) =
      match normalizeURL (applyDescs ds initialClientOptions).baseURL with
      | .error e => .error (.wrapped e)
      | .ok u => .ok { baseURL := u,
                       authToken := (applyDescs ds initialClientOptions).bearerToken,
                       userAgent := (applyDescs ds initialClientOptions).userAgent,
                       httpClient := (applyDescs ds initialClientOptions).httpClient } := by
  unfold NewClient
  rw [applyOptions_map_interp]

theorem applyDescs_httpClient (ds : List OptDesc) (co : clientOptions) :
    (applyDescs ds co).httpClient =
      ds.foldl (fun acc d => match d with | .httpClient t => t | _ => acc) co.httpClient := by
  induction ds generalizing co with
  | nil => rfl
  | cons d ds ih => cases d <;> simp only [applyDescs, List.foldl_cons] <;> exact ih _

theorem applyDescs_baseURL (ds : List OptDesc) (co : clientOptions) :
    (applyDescs ds co).baseURL =
      ds.foldl (fun acc d => match d with | .baseURL s => s | _ => acc) co.baseURL := by
  induction ds generalizing co with
  | nil => rfl
  | cons d ds ih => cases d <;> simp only [applyDescs, List.foldl_cons] <;> exact ih _

/-- Claim C1: for a client built with base URL `https://example.com/api`
(no trailing separator) and relative path `v1/builds`, the built request's
URL is `https://example.com/api/v1/builds`; and for a client with the
default base URL `https://build.sylabs.io/` and the same path, the built
request's URL is `https://build.sylabs.io/v1/builds`. -/
theorem buildRequest_resolves_concrete :
    ((NewClient [OptBaseURL "https://example.com/api"]).bind
        (fun c => c.newRequest "GET" "v1/builds" none)).map
      (fun r => urlString r.url) = .ok "https://example.com/api/v1/builds" ∧
    ((NewClient []).bind (fun c => c.newRequest "GET" "v1/builds" none)).map
      (fun r => urlString r.url) = .ok "https://build.sylabs.io/v1/builds" := by
  constructor <;> decide

/-- Claim C9: `NewClient` with no options succeeds; the resulting client
has base URL `https://build.sylabs.io/`, an empty auth token, an empty
user agent, and the default shared transport. -/
theorem newClient_default :
    NewClient [] = .ok { baseURL := { scheme := "https", opq := "", host := "build.sylabs.io", path := "/" },
                         authToken := "", userAgent := "",
                         httpClient := some Transport.defaultClient } ∧
    (NewClient []).map (fun c => urlString c.baseURL) = .ok "https://build.sylabs.io/" := by
  constructor <;> decide

/-- Claim C5 (counterexample): `NewClient` succeeds on the option sequence
`[OptHTTPClient nil]`, and the resulting client's transport handle is
empty (`none`), contradicting "the transport handle is never empty". -/
theorem newClient_nil_transport_cex :
    NewClient [OptHTTPClient none] =
      .ok { baseURL := { scheme := "https", opq := "", host := "build.sylabs.io", path := "/" },
            authToken := "", userAgent := "", httpClient := none } := by
  decide

/-- Claim C5 (amended): for every option sequence built from the four
exposed constructors on which `NewClient` succeeds, the client's transport
handle is the argument of the last transport option — hence non-empty
whenever the caller supplies a non-nil transport — and the default shared
transport when no transport option was given. -/
theorem newClient_transport_last_set (ds : List OptDesc) (c : Client)
    (h : NewClient (ds.map interpOpt) = .ok c) :
    c.httpClient = finalTransport ds := by
  rw [NewClient_map_interp] at h
  cases hn : normalizeURL (applyDescs ds initialClientOptions).baseURL with
  | error e => rw [hn] at h; exact absurd h (by simp)
  | ok u =>
    rw [hn] at h
    have hc : c.httpClient = (applyDescs ds initialClientOptions).httpClient := by
      cases h; rfl
    rw [hc, applyDescs_httpClient]
    rfl

/-- Claim C5 (witness for the amended theorem). -/
theorem newClient_transport_last_set_witness :
    NewClient ([OptDesc.httpClient (some (Transport.custom 7))].map interpOpt) =
      .ok { baseURL := { scheme := "https", opq := "", host := "build.sylabs.io", path := "/" },
            authToken := "", userAgent := "", httpClient := some (Transport.custom 7) } ∧
    (some (Transport.custom 7) : Option Transport) =
      finalTransport [OptDesc.httpClient (some (Transport.custom 7))] := by
  refine ⟨by decide, ?_⟩
  exact newClient_transport_last_set [OptDesc.httpClient (some (Transport.custom 7))]
    { baseURL := { scheme := "https", opq := "", host := "build.sylabs.io", path := "/" },
      authToken := "", userAgent := "", httpClient := some (Transport.custom 7) } (by decide)

/-- Claim C6 (counterexample): with the client for base
`https://example.com/api` and the path `p = "/x"`, the request built with
path `"/" ++ p = "//x"` resolves to `https://example.com/x`, while the
request built with path `p = "/x"` resolves to `https://example.com/api/x`;
the two built requests differ, so prefixing a separator is not always
neutral. -/
theorem newRequest_double_separator_cex :
    NewClient [OptBaseURL "https://example.com/api"] =
      .ok { baseURL := { scheme := "https", opq := "", host := "example.com", path := "/api/" },
            authToken := "", userAgent := "", httpClient := some Transport.defaultClient } ∧
    (Client.newRequest
        { baseURL := { scheme := "https", opq := "", host := "example.com", path := "/api/" },
          authToken := "", userAgent := "", httpClient := some Transport.defaultClient }
        "GET" ("/" ++ "/x") none).map (fun r => urlString r.url) =
      .ok "https://example.com/x" ∧
    (Client.newRequest
        { baseURL := { scheme := "https", opq := "", host := "example.com", path := "/api/" },
          authToken := "", userAgent := "", httpClient := some Transport.defaultClient }
        "GET" "/x" none).map (fun r => urlString r.url) =
      .ok "https://example.com/api/x" := by
  refine ⟨by decide, by decide, by decide⟩

/-- Claim C6 (amended): request building strips a single leading separator
from the supplied relative path, so for every client, method, body, and
relative path `p` that does not itself begin with the separator, building
with path `"/" ++ p` yields the same request as building with path `p`. -/
theorem newRequest_leading_separator_trim (c : Client) (m p : String)
    (b : Option (List Nat)) (h : hasPrefixStr p "/" = false) :
    c.newRequest m ("/" ++ p) b = c.newRequest m p b := by
  unfold Client.newRequest
  rw [trimPrefixStr_slash_append, trimPrefixStr_no_slash p h]

/-- Claim C6 (witness for the amended theorem). -/
theorem newRequest_leading_separator_trim_witness :
    hasPrefixStr "v1/builds" "/" = false ∧
    Client.newRequest
        { baseURL := { scheme := "https", opq := "", host := "example.com", path := "/api/" },
          authToken := "", userAgent := "", httpClient := some Transport.defaultClient }
        "GET" ("/" ++ "v1/builds") none =
      Client.newRequest
        { baseURL := { scheme := "https", opq := "", host := "example.com", path := "/api/" },
          authToken := "", userAgent := "", httpClient := some Transport.defaultClient }
        "GET" "v1/builds" none := by
  refine ⟨by decide, ?_⟩
  exact newRequest_leading_separator_trim _ _ _ _ (by decide)

/-- Claim C8: options are applied in sequence order; if an option fails,
no later option is applied (the result does not depend on the remaining
options), `NewClient` returns that first error wrapped, and no client
value is returned (the result is the error case). -/
theorem newClient_first_option_error_wrapped (opts1 opts2 : List ClientOpt)
    (opt : ClientOpt) (co : clientOptions) (e : GoError)
    (h1 : applyOptions opts1 initialClientOptions = .ok co)
    (h2 : opt co = .error e) :
    NewClient (opts1 ++ opt :: opts2) = .error (.wrapped e) := by
  unfold NewClient
  rw [applyOptions_append, h1]
  simp only [applyOptions, h2]

/-- An always-failing option, as a future option validating a value might
produce; used to witness the short-circuit behavior of `NewClient`. -/
def failingOpt : ClientOpt := fun _ => .error (.simple "boom")

/-- Claim C8 (witness). -/
theorem newClient_first_option_error_wrapped_witness :
    applyOptions [OptUserAgent "a"] initialClientOptions =
      .ok { baseURL := defaultBaseURL, bearerToken := "", userAgent := "a",
            httpClient := some Transport.defaultClient } ∧
    failingOpt
        { baseURL := defaultBaseURL, bearerToken := "", userAgent := "a",
          httpClient := some Transport.defaultClient } = .error (.simple "boom") ∧
    NewClient ([OptUserAgent "a"] ++ failingOpt :: [OptBearerToken "t"]) =
      .error (.wrapped (.simple "boom")) := by
  refine ⟨by decide, rfl, ?_⟩
  exact newClient_first_option_error_wrapped [OptUserAgent "a"] [OptBearerToken "t"]
    failingOpt
    { baseURL := defaultBaseURL, bearerToken := "", userAgent := "a",
      httpClient := some Transport.defaultClient }
    (.simple "boom") (by decide) rfl

theorem normalizeURL_ok_facts (s : String) (u : URL) (h : normalizeURL s = .ok u) :
    (u.scheme = "http" ∨ u.scheme = "https") ∧ hasSuffixStr u.path "/" = true := by
  unfold normalizeURL at h
  split at h
  · exact absurd h (by simp)
  · rename_i v hv
    split at h
    · exact absurd h (by simp)
    · rename_i hcond
      injection h with h
      subst h
      refine ⟨?_, ensureTrailingSlash_path v⟩
      rw [ensureTrailingSlash_scheme]
      by_cases h1 : v.scheme = "http"
      · exact Or.inl h1
      · by_cases h2 : v.scheme = "https"
        · exact Or.inr h2
        · exact absurd ⟨h1, h2⟩ hcond

/-- Claim C2: whenever `NewClient` succeeds, the client's base URL has
scheme exactly `http` or `https` and its path component ends with the
separator (construction fails for any other scheme, since a success with
another scheme would contradict this). -/
theorem newClient_baseURL_scheme_and_separator (opts : List ClientOpt) (c : Client)
    (h : NewClient opts = .ok c) :
    (c.baseURL.scheme = "http" ∨ c.baseURL.scheme = "https") ∧
      hasSuffixStr c.baseURL.path "/" = true := by
  unfold NewClient at h
  split at h
  · exact absurd h (by simp)
  · rename_i co hao
    split at h
    · exact absurd h (by simp)
    · rename_i u hn
      have hc : c.baseURL = u := by cases h; rfl
      rw [hc]
      exact normalizeURL_ok_facts co.baseURL u hn

/-- Claim C2 (witness). -/
theorem newClient_baseURL_scheme_and_separator_witness :
    NewClient [] =
      .ok { baseURL := { scheme := "https", opq := "", host := "build.sylabs.io", path := "/" },
            authToken := "", userAgent := "", httpClient := some Transport.defaultClient } ∧
    (("https" = "http" ∨ "https" = "https") ∧ hasSuffixStr "/" "/" = true) := by
  refine ⟨by decide, ?_⟩
  exact newClient_baseURL_scheme_and_separator []
    { baseURL := { scheme := "https", opq := "", host := "build.sylabs.io", path := "/" },
      authToken := "", userAgent := "", httpClient := some Transport.defaultClient } (by decide)

theorem NewClient_single_base (s : String) :
    NewClient [OptBaseURL s] =
      match normalizeURL s with
      | .error e => .error (.wrapped e)
      | .ok u => .ok { baseURL := u, authToken := "", userAgent := "",
                       httpClient := some Transport.defaultClient } := rfl

/-- Claim C4: for every input string that parses to a URL whose scheme is
not `http` and not `https` (case-sensitively), `normalizeURL` fails with
the unsupported-scheme error carrying that scheme, and so does `NewClient`
given that string as base URL (wrapped). -/
theorem normalize_unsupported_scheme (s : String) (u : URL)
    (hp : parseURL s = .ok u) (h1 : ¬ u.scheme = "http") (h2 : ¬ u.scheme = "https") :
    normalizeURL s = .error (.unsupportedScheme u.scheme) ∧
    NewClient [OptBaseURL s] = .error (.wrapped (.unsupportedScheme u.scheme)) := by
  have hn : normalizeURL s = .error (.unsupportedScheme u.scheme) := by
    unfold normalizeURL
    simp only [hp]
    rw [if_pos (⟨h1, h2⟩ : u.scheme ≠ "http" ∧ u.scheme ≠ "https")]
  refine ⟨hn, ?_⟩
  rw [NewClient_single_base, hn]

/-- Claim C4 (witness). -/
theorem normalize_unsupported_scheme_witness :
    parseURL "ftp://x" = .ok { scheme := "ftp", opq := "", host := "x", path := "" } ∧
    (normalizeURL "ftp://x" = .error (.unsupportedScheme "ftp") ∧
     NewClient [OptBaseURL "ftp://x"] = .error (.wrapped (.unsupportedScheme "ftp"))) := by
  refine ⟨by decide, ?_⟩
  exact normalize_unsupported_scheme "ftp://x"
    { scheme := "ftp", opq := "", host := "x", path := "" } (by decide) (by decide) (by decide)

/-- Claim C10: each of the four exposed option constructors produces an
option whose application always succeeds, and consequently `NewClient` on
a sequence built from them alone fails exactly when normalizing the
last-set base URL string fails. -/
theorem exposed_options_total_and_construction_error :
    (∀ (d : OptDesc) (co : clientOptions), interpOpt d co = .ok (applyDescs [d] co)) ∧
    (∀ ds : List OptDesc,
      isErr (NewClient (ds.map interpOpt)) = isErr (normalizeURL (finalBaseURL ds))) := by
  constructor
  · intro d co; cases d <;> rfl
  · intro ds
    rw [NewClient_map_interp]
    have hb : (applyDescs ds initialClientOptions).baseURL = finalBaseURL ds := by
      rw [applyDescs_baseURL]; rfl
    rw [hb]
    cases hn : normalizeURL (finalBaseURL ds) <;> rfl

theorem httpNewRequest_ok_header (m us : String) (b : Option (List Nat)) (r : Request)
    (h : httpNewRequest m us b = .ok r) : r.header = [] := by
  simp only [httpNewRequest] at h
  repeat' split at h
  all_goals
    first
      | (injection h with h; subst h; rfl)
      | exact absurd h (by simp)

/-- Claim C3: for every client and every successful request-building call,
the built request carries an `Authorization` header exactly when the auth
token is non-empty, with the literal value `BEARER <token>` (uppercase
scheme word); a `User-Agent` header exactly when the user agent is
non-empty, with that literal value; and no header under any other name. -/
theorem newRequest_headers (c : Client) (m p : String) (b : Option (List Nat)) (r : Request)
    (h : c.newRequest m p b = .ok r) :
    headerGet r.header "Authorization" =
      (if c.authToken = "" then none else some ("BEARER " ++ c.authToken)) ∧
    headerGet r.header "User-Agent" =
      (if c.userAgent = "" then none else some c.userAgent) ∧
    ∀ kv ∈ r.header, kv.1 = "Authorization" ∨ kv.1 = "User-Agent" := by
  simp only [Client.newRequest] at h
  split at h
  · exact absurd h (by simp)
  · rename_i r0 hr0
    injection h with h
    subst h
    rw [httpNewRequest_ok_header _ _ _ _ hr0]
    by_cases hA : c.authToken = "" <;> by_cases hU : c.userAgent = "" <;>
      simp only [Client.setRequestHeaders, headerSet, hA, hU, if_pos, if_neg,
        ne_eq, not_true_eq_false, not_false_eq_true, ite_true, ite_false,
        if_true, if_false, List.filter_nil, List.nil_append, List.filter_cons,
        headerGet, List.find?] <;>
      simp [hA, hU]

/-! Helper lemmas for the normalization idempotence claim. -/

theorem strExt (a b : String) (h : a.data = b.data) : a = b := by
  cases a
  cases b
  cases h
  rfl

theorem getScheme_http (r : String) : getScheme ("http:" ++ r) = .ok ("http", r) := rfl

theorem getScheme_https (r : String) : getScheme ("https:" ++ r) = .ok ("https", r) := rfl

theorem parseURL_getScheme (s scheme rest : String)
    (hg : getScheme s = .ok (scheme, rest)) :
    parseURL s =
      (if hasPrefixStr rest "/" then
        if (scheme ≠ "" ∨ ¬ hasPrefixStr rest "///") ∧ hasPrefixStr rest "//" then
          .ok { scheme := scheme, opq := "",
                host := String.mk (cutSlash (rest.data.drop 2)).1,
                path := String.mk (cutSlash (rest.data.drop 2)).2 }
        else
          .ok { scheme := scheme, opq := "", host := "", path := rest }
      else
        if scheme ≠ "" then
          .ok { scheme := scheme, opq := rest, host := "", path := "" }
        else if (cutSlash rest.data).1.contains ':' then
          .error .colonInFirstSegment
        else
          .ok { scheme := "", opq := "", host := "", path := rest }) := by
  unfold parseURL
  rw [hg]

theorem cutSlash_fst_no_slash (cs : List Char) : '/' ∉ (cutSlash cs).1 := by
  induction cs with
  | nil => simp [cutSlash]
  | cons c cs ih =>
    by_cases hc : c = '/'
    · simp [cutSlash, hc]
    · simp only [cutSlash, if_neg hc]
      intro h
      rcases List.mem_cons.mp h with h | h
      · exact hc h.symm
      · exact ih h

theorem cutSlash_snd_head (cs : List Char) :
    (cutSlash cs).2 = [] ∨ (cutSlash cs).2.head? = some '/' := by
  induction cs with
  | nil => exact Or.inl rfl
  | cons c cs ih =>
    by_cases hc : c = '/'
    · right
      simp [cutSlash, hc]
    · simpa [cutSlash, if_neg hc] using ih

theorem cutSlash_append (l1 l2 : List Char) (h : '/' ∉ l1) :
    cutSlash (l1 ++ '/' :: l2) = (l1, '/' :: l2) := by
  induction l1 with
  | nil => simp [cutSlash]
  | cons c cs ih =>
    have hc : ¬ c = '/' := fun hc => h (by rw [hc]; exact List.mem_cons_self _ _)
    have hcs : '/' ∉ cs := fun hm => h (List.mem_cons_of_mem _ hm)
    simp [cutSlash, if_neg hc, ih hcs]

theorem head_of_hasPrefixSlash (s : String) (h : hasPrefixStr s "/" = true) :
    s.data.head? = some '/' := by
  unfold hasPrefixStr at h
  rw [decide_eq_true_eq] at h
  obtain ⟨t, ht⟩ := h
  rw [← ht]
  rfl

theorem hasPrefixSlash_of_head (s : String) (h : s.data.head? = some '/') :
    hasPrefixStr s "/" = true := by
  unfold hasPrefixStr
  rw [decide_eq_true_eq]
  cases hd : s.data with
  | nil => rw [hd] at h; exact absurd h (by simp)
  | cons c t =>
    rw [hd] at h
    simp only [List.head?_cons, Option.some.injEq] at h
    subst h
    exact ⟨t, rfl⟩

theorem ne_empty_of_hasSuffixSlash (s : String) (h : hasSuffixStr s "/" = true) :
    s ≠ "" := by
  unfold hasSuffixStr at h
  rw [decide_eq_true_eq] at h
  intro he
  subst he
  simp [List.suffix_nil] at h

/-- The shape of every successfully parsed URL with a nonempty scheme:
the host has no separator; the path is empty or separator-rooted; and an
opaque component comes with empty host and path and is not
separator-rooted. -/
def ParsedShape (v : URL) : Prop :=
  ('/' ∉ v.host.data) ∧
  (v.path = "" ∨ v.path.data.head? = some '/') ∧
  (v.opq ≠ "" → v.host = "" ∧ v.path = "" ∧ ¬ v.opq.data.head? = some '/')

theorem parseURL_shape (s : String) (v : URL) (h : parseURL s = .ok v)
    (hs : v.scheme ≠ "") : ParsedShape v := by
  unfold parseURL at h
  split at h
  · exact absurd h (by simp)
  · rename_i scheme rest heq
    split at h
    · rename_i hslash
      split at h
      · injection h with h
        subst h
        refine ⟨cutSlash_fst_no_slash _, ?_, by simp⟩
        rcases cutSlash_snd_head (rest.data.drop 2) with h2 | h2
        · left
          rw [h2]
        · right
          exact h2
      · injection h with h
        subst h
        exact ⟨by simp, Or.inr (head_of_hasPrefixSlash rest hslash), by simp⟩
    · rename_i hnoslash
      split at h
      · injection h with h
        subst h
        refine ⟨by simp, Or.inl rfl, fun _ => ⟨rfl, rfl, ?_⟩⟩
        intro hh
        exact hnoslash (by rw [hasPrefixSlash_of_head rest hh])
      · split at h
        · exact absurd h (by simp)
        · injection h with h
          subst h
          exact absurd rfl hs

theorem ensureTrailingSlash_opq (u : URL) : (ensureTrailingSlash u).opq = u.opq := by
  unfold ensureTrailingSlash
  split <;> rfl

theorem ensureTrailingSlash_host (u : URL) : (ensureTrailingSlash u).host = u.host := by
  unfold ensureTrailingSlash
  split <;> rfl

theorem ensureTrailingSlash_head (v : URL)
    (h : v.path = "" ∨ v.path.data.head? = some '/') :
    (ensureTrailingSlash v).path.data.head? = some '/' := by
  unfold ensureTrailingSlash
  split
  · rcases h with h | h
    · rw [h]
      rfl
    · obtain ⟨t, ht⟩ : ∃ t, v.path.data = '/' :: t := by
        cases hd : v.path.data with
        | nil => rw [hd] at h; exact absurd h (by simp)
        | cons c cs =>
          rw [hd] at h
          simp only [List.head?_cons, Option.some.injEq] at h
          subst h
          exact ⟨cs, rfl⟩
      show ((v.path ++ "/").data).head? = some '/'
      rw [strDataAppend, ht]
      rfl
  · rename_i hnn
    rcases h with h | h
    · exact absurd (by rw [h]; decide) hnn
    · exact h

theorem parseURL_opaque_string (sch o : String)
    (hs : sch = "http" ∨ sch = "https")
    (hoh : ¬ o.data.head? = some '/') :
    parseURL (sch ++ ":" ++ o) = .ok { scheme := sch, opq := o, host := "", path := "" } := by
  have hnp : ¬ hasPrefixStr o "/" = true := fun hq => hoh (head_of_hasPrefixSlash o hq)
  rcases hs with h | h <;> subst h
  · rw [show ("http" ++ ":" ++ o) = ("http:" ++ o) from rfl,
      parseURL_getScheme _ _ _ (getScheme_http o), if_neg hnp,
      if_pos (by decide : ("http" : String) ≠ "")]
  · rw [show ("https" ++ ":" ++ o) = ("https:" ++ o) from rfl,
      parseURL_getScheme _ _ _ (getScheme_https o), if_neg hnp,
      if_pos (by decide : ("https" : String) ≠ "")]

theorem parseURL_authority_string (sch host2 p2 : String)
    (hs : sch = "http" ∨ sch = "https")
    (hh : '/' ∉ host2.data) (hp : p2.data.head? = some '/') :
    parseURL (sch ++ "://" ++ host2 ++ p2) =
      .ok { scheme := sch, opq := "", host := host2, path := p2 } := by
  obtain ⟨t, ht⟩ : ∃ t, p2.data = '/' :: t := by
    cases hd : p2.data with
    | nil => rw [hd] at hp; exact absurd hp (by simp)
    | cons c cs =>
      rw [hd] at hp
      simp only [List.head?_cons, Option.some.injEq] at hp
      subst hp
      exact ⟨cs, rfl⟩
  have hpre1 : hasPrefixStr ("//" ++ (host2 ++ p2)) "/" = true := by
    unfold hasPrefixStr
    rw [decide_eq_true_eq]
    exact ⟨'/' :: (host2 ++ p2).data, rfl⟩
  have hpre2 : hasPrefixStr ("//" ++ (host2 ++ p2)) "//" = true := by
    unfold hasPrefixStr
    rw [decide_eq_true_eq]
    exact ⟨(host2 ++ p2).data, rfl⟩
  have hcut : cutSlash ((("//" ++ (host2 ++ p2)).data).drop 2) = (host2.data, '/' :: t) := by
    have hd2 : ((("//" ++ (host2 ++ p2)).data).drop 2) = host2.data ++ '/' :: t := by
      show (host2 ++ p2).data = host2.data ++ '/' :: t
      rw [strDataAppend, ht]
    rw [hd2]
    exact cutSlash_append _ _ hh
  rcases hs with h | h <;> subst h
  · rw [show ("http" ++ "://" ++ host2 ++ p2) = ("http:" ++ ("//" ++ (host2 ++ p2))) from rfl,
      parseURL_getScheme _ _ _ (getScheme_http _), if_pos hpre1,
      if_pos (⟨Or.inl (by decide), hpre2⟩ :
        (("http" : String) ≠ "" ∨ ¬ hasPrefixStr ("//" ++ (host2 ++ p2)) "///" = true) ∧
          hasPrefixStr ("//" ++ (host2 ++ p2)) "//" = true),
      hcut, ← ht]
  · rw [show ("https" ++ "://" ++ host2 ++ p2) = ("https:" ++ ("//" ++ (host2 ++ p2))) from rfl,
      parseURL_getScheme _ _ _ (getScheme_https _), if_pos hpre1,
      if_pos (⟨Or.inl (by decide), hpre2⟩ :
        (("https" : String) ≠ "" ∨ ¬ hasPrefixStr ("//" ++ (host2 ++ p2)) "///" = true) ∧
          hasPrefixStr ("//" ++ (host2 ++ p2)) "//" = true),
      hcut, ← ht]

theorem normalize_urlString_nonopaque (u : URL)
    (hs : u.scheme = "http" ∨ u.scheme = "https")
    (ho : u.opq = "")
    (hh : '/' ∉ u.host.data)
    (hhead : u.path.data.head? = some '/')
    (hsuf : hasSuffixStr u.path "/" = true) :
    normalizeURL (urlString u) = .ok u := by
  obtain ⟨vs, vo, vh, vp⟩ := u
  have ho2 : vo = "" := ho
  subst ho2
  have hs2 : vs = "http" ∨ vs = "https" := hs
  have hh2 : ('/' : Char) ∉ vh.data := hh
  have hhead2 : vp.data.head? = some '/' := hhead
  have hsuf2 : hasSuffixStr vp "/" = true := hsuf
  have hne : vp ≠ "" := ne_empty_of_hasSuffixSlash vp hsuf2
  have hnp : hasPrefixStr vp "/" = true := hasPrefixSlash_of_head vp hhead2
  have he : ensureTrailingSlash { scheme := vs, opq := "", host := vh, path := vp } =
      { scheme := vs, opq := "", host := vh, path := vp } := by
    unfold ensureTrailingSlash
    rw [if_neg (not_not_intro hsuf2)]
  rcases hs2 with h | h <;> subst h
  · have hus : urlString { scheme := "http", opq := "", host := vh, path := vp } =
        "http" ++ "://" ++ vh ++ vp := by
      unfold urlString
      rw [if_pos (by decide : ("http" : String) ≠ ""),
        if_neg (fun hc => hc rfl : ¬ ("" : String) ≠ ""),
        if_pos (Or.inl (by decide) : ("http" : String) ≠ "" ∨ vh ≠ ""),
        if_pos (Or.inr hne : vh ≠ "" ∨ vp ≠ ""),
        if_neg (fun hc => hc.2.1 hnp :
          ¬ (vp ≠ "" ∧ ¬ hasPrefixStr vp "/" = true ∧ vh ≠ ""))]
      apply strExt
      simp only [strDataAppend,
        show (":" : String).data = [':'] from rfl,
        show ("://" : String).data = [':', '/', '/'] from rfl,
        show ("//" : String).data = ['/', '/'] from rfl,
        show ("" : String).data = ([] : List Char) from rfl,
        List.append_nil, List.append_assoc, List.cons_append, List.nil_append]
    rw [hus]
    unfold normalizeURL
    simp only [parseURL_authority_string "http" vh vp (Or.inl rfl) hh2 hhead2]
    rw [if_neg (by decide :
      ¬ (("http" : String) ≠ "http" ∧ ("http" : String) ≠ "https")), he]
  · have hus : urlString { scheme := "https", opq := "", host := vh, path := vp } =
        "https" ++ "://" ++ vh ++ vp := by
      unfold urlString
      rw [if_pos (by decide : ("https" : String) ≠ ""),
        if_neg (fun hc => hc rfl : ¬ ("" : String) ≠ ""),
        if_pos (Or.inl (by decide) : ("https" : String) ≠ "" ∨ vh ≠ ""),
        if_pos (Or.inr hne : vh ≠ "" ∨ vp ≠ ""),
        if_neg (fun hc => hc.2.1 hnp :
          ¬ (vp ≠ "" ∧ ¬ hasPrefixStr vp "/" = true ∧ vh ≠ ""))]
      apply strExt
      simp only [strDataAppend,
        show (":" : String).data = [':'] from rfl,
        show ("://" : String).data = [':', '/', '/'] from rfl,
        show ("//" : String).data = ['/', '/'] from rfl,
        show ("" : String).data = ([] : List Char) from rfl,
        List.append_nil, List.append_assoc, List.cons_append, List.nil_append]
    rw [hus]
    unfold normalizeURL
    simp only [parseURL_authority_string "https" vh vp (Or.inr rfl) hh2 hhead2]
    rw [if_neg (by decide :
      ¬ (("https" : String) ≠ "http" ∧ ("https" : String) ≠ "https")), he]

theorem normalize_urlString_opq (u : URL)
    (hs : u.scheme = "http" ∨ u.scheme = "https")
    (ho : u.opq ≠ "") (hoh : ¬ u.opq.data.head? = some '/')
    (hh : u.host = "") (hpv : u.path = "/") :
    normalizeURL (urlString u) = .ok u := by
  obtain ⟨vs, vo, vh, vp⟩ := u
  have hh2 : vh = "" := hh
  subst hh2
  have hp2 : vp = "/" := hpv
  subst hp2
  have ho2 : vo ≠ "" := ho
  have hoh2 : ¬ vo.data.head? = some '/' := hoh
  have hs2 : vs = "http" ∨ vs = "https" := hs
  rcases hs2 with h | h <;> subst h
  · have hus : urlString { scheme := "http", opq := vo, host := "", path := "/" } =
        "http" ++ ":" ++ vo := by
      unfold urlString
      rw [if_pos (by decide : ("http" : String) ≠ ""), if_pos ho2]
    rw [hus]
    unfold normalizeURL
    simp only [parseURL_opaque_string "http" vo (Or.inl rfl) hoh2]
    rw [if_neg (by decide :
      ¬ (("http" : String) ≠ "http" ∧ ("http" : String) ≠ "https"))]
    rfl
  · have hus : urlString { scheme := "https", opq := vo, host := "", path := "/" } =
        "https" ++ ":" ++ vo := by
      unfold urlString
      rw [if_pos (by decide : ("https" : String) ≠ ""), if_pos ho2]
    rw [hus]
    unfold normalizeURL
    simp only [parseURL_opaque_string "https" vo (Or.inr rfl) hoh2]
    rw [if_neg (by decide :
      ¬ (("https" : String) ≠ "http" ∧ ("https" : String) ≠ "https"))]
    rfl

/-- Claim C7: for every string that parses to a valid absolute URL with
scheme `http` or `https`, `normalizeURL` succeeds, yields a path ending in
the separator, and is idempotent: normalizing the rendered already-
normalized URL yields the same result. -/
theorem normalize_separator_idempotent (s : String) (v : URL)
    (hp : parseURL s = .ok v)
    (hs : v.scheme = "http" ∨ v.scheme = "https") :
    normalizeURL s = .ok (ensureTrailingSlash v) ∧
    hasSuffixStr (ensureTrailingSlash v).path "/" = true ∧
    normalizeURL (urlString (ensureTrailingSlash v)) = .ok (ensureTrailingSlash v) := by
  have hs0 : v.scheme ≠ "" := by
    rcases hs with h | h <;> rw [h] <;> decide
  obtain ⟨hhost, hpath, hopq⟩ := parseURL_shape s v hp hs0
  have h1 : normalizeURL s = .ok (ensureTrailingSlash v) := by
    unfold normalizeURL
    simp only [hp]
    rw [if_neg (fun hc => by
      rcases hs with h | h
      · exact hc.1 h
      · exact hc.2 h)]
  refine ⟨h1, ensureTrailingSlash_path v, ?_⟩
  by_cases ho : v.opq = ""
  · exact normalize_urlString_nonopaque (ensureTrailingSlash v)
      (by rw [ensureTrailingSlash_scheme]; exact hs)
      (by rw [ensureTrailingSlash_opq]; exact ho)
      (by rw [ensureTrailingSlash_host]; exact hhost)
      (ensureTrailingSlash_head v hpath)
      (ensureTrailingSlash_path v)
  · obtain ⟨hh0, hp0, hoh⟩ := hopq ho
    obtain ⟨vs, vo, vh, vp⟩ := v
    have hh1 : vh = "" := hh0
    subst hh1
    have hp1 : vp = "" := hp0
    subst hp1
    have he : ensureTrailingSlash { scheme := vs, opq := vo, host := "", path := "" } =
        { scheme := vs, opq := vo, host := "", path := "/" } := rfl
    rw [he]
    exact normalize_urlString_opq { scheme := vs, opq := vo, host := "", path := "/" }
      hs ho hoh rfl rfl

/-- Claim C7 (witness). -/
theorem normalize_separator_idempotent_witness :
    (parseURL "https://example.com/api" =
        .ok { scheme := "https", opq := "", host := "example.com", path := "/api" } ∧
      (("https" : String) = "http" ∨ ("https" : String) = "https")) ∧
    (normalizeURL "https://example.com/api" =
        .ok (ensureTrailingSlash { scheme := "https", opq := "", host := "example.com", path := "/api" }) ∧
      hasSuffixStr (ensureTrailingSlash { scheme := "https", opq := "", host := "example.com", path := "/api" }).path "/" = true ∧
      normalizeURL (urlString (ensureTrailingSlash { scheme := "https", opq := "", host := "example.com", path := "/api" })) =
        .ok (ensureTrailingSlash { scheme := "https", opq := "", host := "example.com", path := "/api" })) := by
  refine ⟨⟨by decide, Or.inr rfl⟩, ?_⟩
  exact normalize_separator_idempotent "https://example.com/api"
    { scheme := "https", opq := "", host := "example.com", path := "/api" }
    (by decide) (Or.inr rfl)

/-- Claim C3 (witness). -/
theorem newRequest_headers_witness :
    Client.newRequest
        { baseURL := { scheme := "https", opq := "", host := "build.sylabs.io", path := "/" },
          authToken := "abc123", userAgent := "", httpClient := some Transport.defaultClient }
        "GET" "v1/builds" none =
      .ok { method := "GET",
            url := { scheme := "https", opq := "", host := "build.sylabs.io", path := "/v1/builds" },
            header := [("Authorization", "BEARER abc123")], body := none } ∧
    (headerGet [(("Authorization" : String), ("BEARER abc123" : String))] "Authorization" =
        (if ("abc123" : String) = "" then none else some ("BEARER " ++ "abc123")) ∧
      headerGet [(("Authorization" : String), ("BEARER abc123" : String))] "User-Agent" =
        (if ("" : String) = "" then none else some "") ∧
      ∀ kv ∈ [(("Authorization" : String), ("BEARER abc123" : String))],
        kv.1 = "Authorization" ∨ kv.1 = "User-Agent") := by
  refine ⟨by decide, ?_⟩
  exact newRequest_headers
    { baseURL := { scheme := "https", opq := "", host := "build.sylabs.io", path := "/" },
      authToken := "abc123", userAgent := "", httpClient := some Transport.defaultClient }
    "GET" "v1/builds" none
    { method := "GET",
      url := { scheme := "https", opq := "", host := "build.sylabs.io", path := "/v1/builds" },
      header := [("Authorization", "BEARER abc123")], body := none }
    (by decide)
